import Mathlib

/- Verification of the ai-mux reverse proxy (package internal/aimux):
   a shallow embedding of the credential lifecycle engine and the
   provider dispatch / request-forwarding pipeline, with theorems about
   the behaviour of the embedded functions. -/

/-- Go strings modelled as lists of characters. -/
abbrev Str := List Char

/-- Coerce a Lean string literal into the Go string model. -/
def gs (x : String) : Str := x.data

/-- ASCII lower-casing of one character (strings.ToLower on ASCII input). -/
def lowerChar (c : Char) : Char :=
  if 'A' ≤ c ∧ c ≤ 'Z' then Char.ofNat (c.toNat + 32) else c

/-- strings.ToLower (ASCII fragment). -/
def lowerStr (x : Str) : Str := x.map lowerChar

/-- strings.EqualFold (ASCII fragment): case-insensitive equality. -/
def equalFold (a b : Str) : Bool := lowerStr a = lowerStr b

/-- Go whitespace recognised by strings.TrimSpace (ASCII fragment). -/
def isGoSpace (c : Char) : Bool :=
  c = ' ' ∨ c = '\t' ∨ c = '\n' ∨ c = '\x0b' ∨ c = '\x0c' ∨ c = '\r'

/-- strings.TrimSpace (ASCII fragment). -/
def trimSpace (x : Str) : Str :=
  ((x.dropWhile isGoSpace).reverse.dropWhile isGoSpace).reverse

/-- strings.TrimSuffix: remove one trailing occurrence of the suffix. -/
def goTrimSuffix (x suffix : Str) : Str :=
  if suffix.isSuffixOf x then x.take (x.length - suffix.length) else x

/-- strings.TrimPrefix: remove one leading occurrence. -/
def goTrimLead (x lead : Str) : Str :=
  if lead.isPrefixOf x then x.drop lead.length else x

/-- time.Duration: nanoseconds. -/
abbrev Dur := Int

/-- time.Time modelled as nanoseconds since the Unix epoch. -/
structure GoTime where
  ns : Int
deriving DecidableEq

/-- Unix nanoseconds of Go's zero time.Time (January 1, year 1, 00:00:00 UTC). -/
def goZeroNs : Int := -62135596800000000000

/-- The zero time.Time. -/
def GoTime.zero : GoTime := ⟨goZeroNs⟩

/-- time.Time.IsZero. -/
def GoTime.isZero (t : GoTime) : Bool := t.ns = goZeroNs

/-- time.Time.Before. -/
def GoTime.before (a b : GoTime) : Bool := a.ns < b.ns

/-- time.Time.After. -/
def GoTime.after (a b : GoTime) : Bool := b.ns < a.ns

/-- time.Time.Add. -/
def GoTime.add (t : GoTime) (d : Dur) : GoTime := ⟨t.ns + d⟩

/-- time.Time.UnixMilli (floor division matches Go's sec/nsec representation). -/
def GoTime.unixMilli (t : GoTime) : Int := Int.fdiv t.ns 1000000

/-- time.UnixMilli: build a time from epoch milliseconds. -/
def timeUnixMilli (ms : Int) : GoTime := ⟨ms * 1000000⟩

/- ---------------------------------------------------------------------
   Domain model: TokenCredentials (credential_source.go / part_005).
   The Go field `Metadata any` holds either nil, *ClaudeMetadata or
   *ChatGPTMetadata; we embed it as a closed sum.
   --------------------------------------------------------------------- -/

/-- The `Metadata any` field: nil, *ClaudeMetadata, or *ChatGPTMetadata. -/
inductive Metadata
  | null
  | claude (scopes : List Str) (subscriptionType : Str) (isMax : Bool) (rateLimitTier : Str)
  | chatgpt (idToken : Str) (accountId : Str) (apiKey : Str)
deriving DecidableEq

/-- TokenCredentials: the normalized in-memory record (part_005). -/
structure TokenCredentials where
  accessToken : Str
  refreshToken : Str
  expiresAt : GoTime
  metadata : Metadata
deriving DecidableEq

/- ---------------------------------------------------------------------
   CredentialManager (part_005, lines 516-745). The mutex-protected
   state is embedded as an explicit record; network and disk effects are
   passed in as oracles.
   --------------------------------------------------------------------- -/

/-- The CredentialManager's mutable state plus its timing configuration. -/
structure ManagerState where
  creds : Option TokenCredentials
  started : Bool
  refreshInterval : Dur
  checkInterval : Dur
deriving DecidableEq

/-- CredentialManager.tokenValidLocked (part_005:737-745). -/
def tokenValidLocked (m : ManagerState) (now : GoTime) : Bool :=
  match m.creds with
  | none => false
  | some c =>
    if c.accessToken = [] then false
    else if c.expiresAt.isZero then true
    else c.expiresAt.after now

/-- The error message AuthorizationHeader fails with. -/
def unavailableErr : Str := gs "provider is not available: credentials not ready"

/-- CredentialManager.AuthorizationHeader (part_005:598-611). -/
def authorizationHeader (m : ManagerState) (now : GoTime) : Except Str Str :=
  match m.creds, tokenValidLocked m now with
  | some c, true => .ok (gs "Bearer " ++ c.accessToken)
  | _, _ => .error unavailableErr

/-- CredentialManager.IsAvailable (part_005:628-632). -/
def isAvailable (m : ManagerState) (now : GoTime) : Bool := tokenValidLocked m now

/-- Manager state immediately after NewCredentialManager's successful
    load, before Start was ever called (part_005:530-561, 634-645). -/
def loadedState (c : TokenCredentials) (ri ci : Dur) : ManagerState :=
  { creds := some c, started := false, refreshInterval := ri, checkInterval := ci }

/-- CredentialManager.needsRefreshLocked (part_005:695-703). -/
def needsRefreshLocked (m : ManagerState) (now : GoTime) : Bool :=
  match m.creds with
  | none => true
  | some c =>
    if c.accessToken = [] then true
    else if !c.expiresAt.isZero then c.expiresAt.before (now.add m.refreshInterval)
    else true

/-- CredentialManager.refreshLocked (part_005:706-734), with the
    Refresher call and the Store.Save outcome supplied as oracles.
    Returns the post state, the record handed to Store.Save (none when
    Save was never reached), and the call's result. A Save failure is
    only logged by the Go code, so it influences none of the three. -/
def refreshLocked (m : ManagerState)
    (refresh : Str → Except Str TokenCredentials)
    (save : TokenCredentials → Except Str Unit) :
    ManagerState × Option TokenCredentials × Except Str Unit :=
  match m.creds with
  | none => (m, none, .error (gs "refresh token is missing"))
  | some c =>
    if c.refreshToken = [] then (m, none, .error (gs "refresh token is missing"))
    else
      match refresh c.refreshToken with
      | .error e => (m, none, .error e)
      | .ok newCreds =>
        if newCreds.accessToken = [] then
          (m, none, .error (gs "refresh returned empty access token"))
        else
          ({ m with creds := some newCreds }, some newCreds, .ok ())

/-- The spec's Valid condition: AccessToken non-empty and (ExpiresAt
    unset or ExpiresAt after now). -/
def validCond (c : TokenCredentials) (now : GoTime) : Prop :=
  c.accessToken ≠ [] ∧ (c.expiresAt.isZero = true ∨ c.expiresAt.after now = true)

instance (c : TokenCredentials) (now : GoTime) : Decidable (validCond c now) := by
  unfold validCond; infer_instance

/-- Helper: tokenValidLocked coincides with the Valid condition. -/
theorem tokenValidLocked_iff (m : ManagerState) (c : TokenCredentials)
    (h : m.creds = some c) (now : GoTime) :
    tokenValidLocked m now = true ↔ validCond c now := by
  unfold tokenValidLocked validCond
  rw [h]
  by_cases hacc : c.accessToken = []
  · simp [hacc]
  · by_cases hz : c.expiresAt.isZero
    · simp [hacc, hz]
    · simp [hacc, hz]

/-- C1: AuthorizationHeader returns exactly "Bearer " ++ AccessToken iff
    the record's AccessToken is non-empty and ExpiresAt is unset or after
    now; otherwise it fails with the "unavailable" error. IsAvailable is
    true under exactly the same condition, for every manager state with
    this record — in particular for the state produced by a successful
    Load with Start never called (started = false). -/
theorem c1_auth_header_and_availability (m : ManagerState) (c : TokenCredentials)
    (h : m.creds = some c) (now : GoTime) :
    (authorizationHeader m now = .ok (gs "Bearer " ++ c.accessToken) ↔ validCond c now)
    ∧ (¬ validCond c now → authorizationHeader m now = .error unavailableErr)
    ∧ (isAvailable m now = true ↔ validCond c now) := by
  have hv := tokenValidLocked_iff m c h now
  refine ⟨?_, ?_, ?_⟩
  · constructor
    · intro hok
      unfold authorizationHeader at hok
      rw [h] at hok
      by_cases ht : tokenValidLocked m now
      · exact hv.mp ht
      · simp [ht] at hok
    · intro hcond
      unfold authorizationHeader
      rw [h, hv.mpr hcond]
  · intro hcond
    unfold authorizationHeader
    rw [h]
    have ht : tokenValidLocked m now = false := by
      cases hb : tokenValidLocked m now
      · rfl
      · exact absurd (hv.mp hb) hcond
    rw [ht]
  · exact hv

/-- Witness for C1 at a concrete loaded, not-yet-started state. -/
theorem c1_auth_header_and_availability_witness :
    authorizationHeader (loadedState ⟨gs "tok-a", gs "ref-a", GoTime.zero, .null⟩ 0 0) ⟨0⟩
      = .ok (gs "Bearer " ++ gs "tok-a") :=
  ((c1_auth_header_and_availability
      (loadedState ⟨gs "tok-a", gs "ref-a", GoTime.zero, .null⟩ 0 0)
      ⟨gs "tok-a", gs "ref-a", GoTime.zero, .null⟩ rfl ⟨0⟩).1).mpr (by decide)

/-- C2 fails on the code: with a non-empty AccessToken and a zero/unset
    ExpiresAt, needsRefreshLocked returns true (part_005:702 falls
    through to `return true`), while the claim says no refresh is needed
    then. Concrete state: AccessToken "tok", ExpiresAt zero, interval
    10 minutes. -/
theorem c2_counterexample :
    needsRefreshLocked
      (loadedState ⟨gs "tok", gs "ref", GoTime.zero, .null⟩ 600000000000 60000000000)
      ⟨1700000000000000000⟩ = true
    ∧ ¬ ((gs "tok" : Str) = []
          ∨ ((GoTime.zero).isZero = false
              ∧ (GoTime.zero).before ((⟨1700000000000000000⟩ : GoTime).add 600000000000) = true)) := by
  constructor
  · rfl
  · decide

/-- C2 amended: a refresh is needed iff AccessToken is empty, OR
    ExpiresAt is zero/unset, OR ExpiresAt is set and before
    now + RefreshInterval. A non-empty token with unset expiry is served
    as perpetually valid but still triggers refresh attempts. -/
theorem c2_needs_refresh_iff (m : ManagerState) (c : TokenCredentials)
    (h : m.creds = some c) (now : GoTime) :
    needsRefreshLocked m now = true ↔
      (c.accessToken = [] ∨ c.expiresAt.isZero = true
        ∨ (c.expiresAt.isZero = false
            ∧ c.expiresAt.before (now.add m.refreshInterval) = true)) := by
  unfold needsRefreshLocked
  rw [h]
  by_cases hacc : c.accessToken = []
  · simp [hacc]
  · by_cases hz : c.expiresAt.isZero
    · simp [hacc, hz]
    · simp [hacc, hz]

/-- Witness for the amended C2: token expiring within the window. -/
theorem c2_needs_refresh_iff_witness :
    needsRefreshLocked (loadedState ⟨gs "tok", gs "ref", ⟨1000⟩, .null⟩ 600000000000 0) ⟨0⟩ = true :=
  (c2_needs_refresh_iff (loadedState ⟨gs "tok", gs "ref", ⟨1000⟩, .null⟩ 600000000000 0)
      ⟨gs "tok", gs "ref", ⟨1000⟩, .null⟩ rfl ⟨0⟩).mpr (by decide)

/-- C3: if the Refresher fails or returns an empty access token, the
    in-memory record is untouched (no Save happens, availability at any
    instant is unchanged, so a still-valid token keeps serving); on
    success the in-memory record is replaced and that exact record is
    handed to Store.Save, and the outcome is independent of the Save
    oracle, so a Save failure cannot revert the in-memory update. -/
theorem c3_refresh_failure_and_success (m : ManagerState) (c : TokenCredentials)
    (h : m.creds = some c)
    (refresh : Str → Except Str TokenCredentials)
    (save : TokenCredentials → Except Str Unit) :
    (∀ e, (refreshLocked m refresh save).2.2 = .error e →
        (refreshLocked m refresh save).1 = m
        ∧ (refreshLocked m refresh save).2.1 = none
        ∧ ∀ now, isAvailable (refreshLocked m refresh save).1 now = isAvailable m now)
    ∧ (∀ n, c.refreshToken ≠ [] → refresh c.refreshToken = .ok n → n.accessToken ≠ [] →
        (refreshLocked m refresh save).1 = { m with creds := some n }
        ∧ (refreshLocked m refresh save).2.1 = some n
        ∧ (refreshLocked m refresh save).2.2 = .ok ()) := by
  constructor
  · intro e herr
    by_cases hrt : c.refreshToken = []
    · refine ⟨?_, ?_, fun now => ?_⟩ <;> simp [refreshLocked, h, hrt]
    · cases hr : refresh c.refreshToken with
      | error e2 => refine ⟨?_, ?_, fun now => ?_⟩ <;> simp [refreshLocked, h, hrt, hr]
      | ok n =>
        by_cases hna : n.accessToken = []
        · refine ⟨?_, ?_, fun now => ?_⟩ <;> simp [refreshLocked, h, hrt, hr, hna]
        · exfalso
          simp [refreshLocked, h, hrt, hr, hna] at herr
  · intro n hrt hr hna
    simp [refreshLocked, h, hrt, hr, hna]

/-- Witness for C3: a successful refresh replaces the record even though
    the Save oracle reports a disk failure. -/
theorem c3_refresh_failure_and_success_witness :
    (refreshLocked (loadedState ⟨gs "old", gs "ref", GoTime.zero, .null⟩ 0 0)
        (fun _ => .ok ⟨gs "new", gs "ref2", GoTime.zero, .null⟩)
        (fun _ => .error (gs "disk full"))).1
      = { loadedState ⟨gs "old", gs "ref", GoTime.zero, .null⟩ 0 0 with
            creds := some ⟨gs "new", gs "ref2", GoTime.zero, .null⟩ } :=
  ((c3_refresh_failure_and_success
      (loadedState ⟨gs "old", gs "ref", GoTime.zero, .null⟩ 0 0)
      ⟨gs "old", gs "ref", GoTime.zero, .null⟩ rfl
      (fun _ => .ok ⟨gs "new", gs "ref2", GoTime.zero, .null⟩)
      (fun _ => .error (gs "disk full"))).2
    ⟨gs "new", gs "ref2", GoTime.zero, .null⟩ (by decide) rfl (by decide)).1

/- ---------------------------------------------------------------------
   Authenticator (part_003, lines 166-199) and Service.authenticate /
   ServeHTTP (part_005, lines 205-357).
   --------------------------------------------------------------------- -/

/-- User (config.go). -/
structure User where
  name : Str
  token : Str
deriving DecidableEq

/-- The Authenticator's token→name map: Update inserts users in order,
    so a later duplicate token overwrites an earlier one; lookup is the
    last user carrying the token. -/
def authLookup (users : List User) (tok : Str) : Option Str :=
  match users.reverse.find? (fun u => u.token = tok) with
  | some u => some u.name
  | none => none

/-- Authenticator.HasUsers: the map is non-empty iff the user list is. -/
def hasUsers (users : List User) : Bool := users ≠ []

/-- Service.authenticate (part_005:324-357). The Authorization value is
    what r.Header.Get returns — the empty string both when the header is
    absent and when present but empty. Returns (username, accepted). -/
def authenticate (users : List User) (authValue : Str) : Str × Bool :=
  if hasUsers users = false then ([], true)
  else if authValue = [] then ([], true)
  else if authValue.length < (gs "bearer ").length then ([], false)
  else if equalFold (authValue.take 7) (gs "bearer ") = false then ([], false)
  else
    let token := trimSpace (authValue.drop 7)
    if token = [] then ([], false)
    else
      match authLookup users token with
      | some name => (name, true)
      | none => ([], false)

/-- Outcome of Service.ServeHTTP's dispatch (part_005:205-322). -/
inductive ServeOutcome
  | notFound
  | unavailable
  | unauthorized
  | badRequest
  | badGateway
  | relayed
deriving DecidableEq

/-- HTTP status written for each outcome (the http.Error / http.NotFound
    calls); a relayed response carries the upstream status. -/
def outcomeStatus (upstreamStatus : Nat) : ServeOutcome → Nat
  | .notFound => 404
  | .unavailable => 503
  | .unauthorized => 401
  | .badRequest => 400
  | .badGateway => 502
  | .relayed => upstreamStatus

/-- The per-request effects of ServeHTTP other than authentication,
    supplied as oracles: registry resolution, provider availability,
    upstream request construction and transport. -/
structure ServeEnv where
  resolved : Option (Str × Str)
  available : Bool
  buildOk : Bool
  execOk : Bool
deriving DecidableEq

/-- Service.ServeHTTP control flow (part_005:237-294): the outcome plus
    whether BuildUpstreamRequest was ever invoked. -/
def serveHTTP (env : ServeEnv) (users : List User) (authValue : Str) :
    ServeOutcome × Bool :=
  match env.resolved with
  | none => (.notFound, false)
  | some _ =>
    if env.available = false then (.unavailable, false)
    else if (authenticate users authValue).2 = false then (.unauthorized, false)
    else if env.buildOk = false then (.badRequest, true)
    else if env.execOk = false then (.badGateway, true)
    else (.relayed, true)

/-- The spec's "well-formed Bearer value": a case-insensitive "bearer "
    lead followed by a token non-empty after whitespace trimming;
    returns that token. -/
def bearerToken (v : Str) : Option Str :=
  if (gs "bearer ").length ≤ v.length ∧ equalFold (v.take 7) (gs "bearer ") = true then
    if trimSpace (v.drop 7) = [] then none else some (trimSpace (v.drop 7))
  else none

/-- C4: with no users configured every request is accepted unattributed;
    with users configured but an empty/absent Authorization value the
    request is accepted anonymously; a non-empty Authorization value is
    accepted exactly when it is a well-formed Bearer value whose token
    maps to a configured user; and a rejected request yields outcome
    unauthorized (status 401) with BuildUpstreamRequest never invoked. -/
theorem c4_authentication_policy (users : List User) (authValue : Str) :
    (hasUsers users = false → authenticate users authValue = ([], true))
    ∧ (hasUsers users = true → authValue = [] → authenticate users authValue = ([], true))
    ∧ (hasUsers users = true → authValue ≠ [] →
        ((authenticate users authValue).2 = true ↔
          ∃ t, bearerToken authValue = some t ∧ (authLookup users t).isSome = true))
    ∧ (∀ env : ServeEnv, env.resolved.isSome = true → env.available = true →
        (authenticate users authValue).2 = false →
        serveHTTP env users authValue = (.unauthorized, false)
        ∧ outcomeStatus 200 (serveHTTP env users authValue).1 = 401) := by
  refine ⟨?_, ?_, ?_, ?_⟩
  · intro hu
    simp [authenticate, hu]
  · intro hu hv
    simp [authenticate, hu, hv]
  · intro hu hv
    unfold authenticate bearerToken
    rw [hu]
    simp only [Bool.true_eq_false, if_false, if_neg hv]
    by_cases hlen : authValue.length < (gs "bearer ").length
    · have hlen2 : ¬ (gs "bearer ").length ≤ authValue.length := by omega
      simp [hlen, hlen2]
    · have hlen2 : (gs "bearer ").length ≤ authValue.length := by omega
      by_cases hfold : equalFold (authValue.take 7) (gs "bearer ") = true
      · by_cases htok : trimSpace (authValue.drop 7) = []
        · simp [hlen, hlen2, hfold, htok]
        · simp only [hlen, if_false, hfold, Bool.true_eq_false, if_neg htok,
            hlen2, true_and, if_true]
          cases hl : authLookup users (trimSpace (authValue.drop 7)) with
          | none => simp [hl]
          | some name => simp [hl]
      · have hfold2 : equalFold (authValue.take 7) (gs "bearer ") = false := by
          cases hb : equalFold (authValue.take 7) (gs "bearer ")
          · rfl
          · exact absurd hb hfold
        simp [hlen, hfold2, hlen2, hfold]
  · intro env hres hav hrej
    cases henv : env.resolved with
    | none => rw [henv] at hres; simp at hres
    | some pr =>
      constructor
      · unfold serveHTTP
        rw [henv, hav, hrej]
        rfl
      · unfold serveHTTP
        rw [henv, hav, hrej]
        rfl

/-- Witness for C4 at a concrete configuration: one user, a wrong
    bearer token, resolvable available provider — rejected with 401 and
    no upstream request built. -/
theorem c4_authentication_policy_witness :
    serveHTTP ⟨some (gs "claude", gs "/v1/x"), true, true, true⟩
        [⟨gs "alice", gs "secret-token-1234"⟩] (gs "Bearer wrong")
      = (.unauthorized, false) :=
  (((c4_authentication_policy [⟨gs "alice", gs "secret-token-1234"⟩]
      (gs "Bearer wrong")).2.2.2
    ⟨some (gs "claude", gs "/v1/x"), true, true, true⟩ rfl rfl (by decide)).1)

/- ---------------------------------------------------------------------
   Provider registry (part_004, lines 57-135): prefix normalization,
   overlap validation, stable length-descending ordering, resolution.
   --------------------------------------------------------------------- -/

/-- providerRegistration: a path head plus the provider it routes to
    (the provider is abstracted to its ID). -/
structure ProviderReg where
  pfx : Str
  pid : Str
deriving DecidableEq

/-- The overlap condition of validateProviderPrefixes: one path head is
    a string lead of the other. -/
def regsOverlap (a b : Str) : Bool := a.isPrefixOf b || b.isPrefixOf a

/-- validateProviderPrefixes (part_004:90-101): true when some pair of
    distinct positions overlaps. -/
def anyOverlap : List ProviderReg → Bool
  | [] => false
  | e :: rest => rest.any (fun f => regsOverlap e.pfx f.pfx) || anyOverlap rest

/-- One step of sort.SliceStable ordering by strictly longer path head
    first: insert after all entries of length ≥ the new one. -/
def insertByLen (e : ProviderReg) : List ProviderReg → List ProviderReg
  | [] => [e]
  | f :: rest =>
    if e.pfx.length ≤ f.pfx.length then f :: insertByLen e rest
    else e :: f :: rest

/-- Stable sort by descending path-head length (part_004:84-86). -/
def sortByLenDesc (l : List ProviderReg) : List ProviderReg :=
  l.foldl (fun acc e => insertByLen e acc) []

/-- Normalization applied to each entry: one trailing "/" removed. -/
def normalizeReg (e : ProviderReg) : ProviderReg :=
  ⟨goTrimSuffix e.pfx (gs "/"), e.pid⟩

/-- newProviderRegistry (part_004:66-88). -/
def newProviderRegistry (entries : List ProviderReg) : Except Str (List ProviderReg) :=
  if entries = [] then .error (gs "no providers configured")
  else if (entries.map normalizeReg).any (fun e => e.pfx.isEmpty) then
    .error (gs "provider prefix cannot be empty")
  else if anyOverlap (entries.map normalizeReg) then
    .error (gs "provider prefixes overlap")
  else .ok (sortByLenDesc (entries.map normalizeReg))

/-- trimPrefix (part_004:112-127): match a path against one registered
    path head; an exact match yields "/". -/
def trimHead (path pfx : Str) : Option Str :=
  if pfx.isPrefixOf path = false then none
  else if pfx.length < path.length ∧ path[pfx.length]? ≠ some '/' then none
  else if path.drop pfx.length = [] then some (gs "/")
  else if (gs "/").isPrefixOf (path.drop pfx.length) = false then
    some ('/' :: path.drop pfx.length)
  else some (path.drop pfx.length)

/-- providerRegistry.Resolve (part_004:103-110). -/
def resolveReg : List ProviderReg → Str → Option (Str × Str)
  | [], _ => none
  | e :: rest, path =>
    match trimHead path e.pfx with
    | some t => some (e.pid, t)
    | none => resolveReg rest path

/-- goTrimSuffix only ever shortens from the right, so its result leads
    the original string. -/
theorem goTrimSuffix_isPrefix (x s : Str) : goTrimSuffix x s <+: x := by
  unfold goTrimSuffix
  split
  · exact List.take_prefix _ _
  · exact List.prefix_refl x

/-- Removing one trailing "/" from both sides of a string-lead pair
    preserves the lead relation. -/
theorem goTrimSuffix_slash_mono (a b : Str) (h : a <+: b) :
    goTrimSuffix a (gs "/") <+: goTrimSuffix b (gs "/") := by
  unfold goTrimSuffix
  by_cases hsa : (gs "/").isSuffixOf a
  · rw [if_pos hsa]
    have ha1 : 1 ≤ a.length := by
      have := (List.isSuffixOf_iff_suffix.mp hsa).length_le
      simpa [gs] using this
    by_cases hsb : (gs "/").isSuffixOf b
    · rw [if_pos hsb]
      rw [List.prefix_take_iff]
      refine ⟨(List.take_prefix _ a).trans h, ?_⟩
      have h1 : a.length ≤ b.length := h.length_le
      have hg : (gs "/").length = 1 := rfl
      rw [List.length_take, hg]
      omega
    · rw [if_neg hsb]
      exact (List.take_prefix _ a).trans h
  · rw [if_neg hsa]
    by_cases hsb : (gs "/").isSuffixOf b
    · rw [if_pos hsb]
      rw [List.prefix_take_iff]
      refine ⟨h, ?_⟩
      have h1 : a.length ≤ b.length := h.length_le
      by_cases heq : a.length = b.length
      · exact absurd (h.eq_of_length heq ▸ hsb) hsa
      · have hg : (gs "/").length = 1 := rfl
        rw [hg]
        omega
    · rw [if_neg hsb]
      exact h

/-- Raw overlap survives normalization. -/
theorem regsOverlap_normalize (a b : Str) (h : regsOverlap a b = true) :
    regsOverlap (goTrimSuffix a (gs "/")) (goTrimSuffix b (gs "/")) = true := by
  unfold regsOverlap at h ⊢
  rw [Bool.or_eq_true] at h ⊢
  rcases h with h | h
  · exact Or.inl (List.isPrefixOf_iff_prefix.mpr
      (goTrimSuffix_slash_mono a b (List.isPrefixOf_iff_prefix.mp h)))
  · exact Or.inr (List.isPrefixOf_iff_prefix.mpr
      (goTrimSuffix_slash_mono b a (List.isPrefixOf_iff_prefix.mp h)))

/-- Unfolding equation for anyOverlap on a cons cell. -/
theorem anyOverlap_cons (e : ProviderReg) (rest : List ProviderReg) :
    anyOverlap (e :: rest)
      = (rest.any (fun f => regsOverlap e.pfx f.pfx) || anyOverlap rest) := rfl

/-- anyOverlap as a pairwise non-overlap condition. -/
theorem anyOverlap_eq_false_iff (l : List ProviderReg) :
    anyOverlap l = false ↔ l.Pairwise (fun a b => regsOverlap a.pfx b.pfx = false) := by
  induction l with
  | nil => simp [anyOverlap]
  | cons e rest ih =>
    rw [List.pairwise_cons, ← ih, anyOverlap_cons, Bool.or_eq_false_iff, List.any_eq_false]
    constructor
    · rintro ⟨h1, h2⟩
      exact ⟨fun f hf => by simpa using h1 f hf, h2⟩
    · rintro ⟨h1, h2⟩
      exact ⟨fun f hf => by simpa using h1 f hf, h2⟩

/-- insertByLen permutes. -/
theorem insertByLen_perm (e : ProviderReg) (l : List ProviderReg) :
    (insertByLen e l).Perm (e :: l) := by
  induction l with
  | nil => exact List.Perm.refl _
  | cons f rest ih =>
    unfold insertByLen
    split
    · exact (ih.cons f).trans (List.Perm.swap e f rest)
    · exact List.Perm.refl _

/-- The fold underlying sortByLenDesc permutes. -/
theorem foldl_insertByLen_perm (l acc : List ProviderReg) :
    (l.foldl (fun a e => insertByLen e a) acc).Perm (l ++ acc) := by
  induction l generalizing acc with
  | nil => simp
  | cons e rest ih =>
    simp only [List.foldl_cons, List.cons_append]
    exact ((ih (insertByLen e acc)).trans
      (List.Perm.append_left rest (insertByLen_perm e acc))).trans
      List.perm_middle

/-- sortByLenDesc permutes its input. -/
theorem sortByLenDesc_perm (l : List ProviderReg) : (sortByLenDesc l).Perm l := by
  simpa using foldl_insertByLen_perm l []

/-- A successful trimHead means the head is a lead of the path. -/
theorem trimHead_isPrefix (path pfx t : Str) (h : trimHead path pfx = some t) :
    pfx <+: path := by
  unfold trimHead at h
  by_cases hp : pfx.isPrefixOf path = false
  · rw [if_pos hp] at h
    exact absurd h (by simp)
  · have : pfx.isPrefixOf path = true := by
      cases hb : pfx.isPrefixOf path
      · exact absurd hb hp
      · rfl
    exact List.isPrefixOf_iff_prefix.mp this

/-- Among pairwise non-overlapping registrations, a successful Resolve
    picks an entry that matches, and every matching entry's head has at
    most that length (in fact the match is unique). -/
theorem resolveReg_longest (regs : List ProviderReg) (path : Str)
    (hp : regs.Pairwise (fun a b => regsOverlap a.pfx b.pfx = false))
    (pid t : Str) (h : resolveReg regs path = some (pid, t)) :
    ∃ e ∈ regs, e.pid = pid ∧ trimHead path e.pfx = some t
      ∧ ∀ f ∈ regs, trimHead path f.pfx ≠ none → f.pfx.length ≤ e.pfx.length := by
  induction regs with
  | nil => simp [resolveReg] at h
  | cons e rest ih =>
    rw [List.pairwise_cons] at hp
    obtain ⟨he, hrest⟩ := hp
    unfold resolveReg at h
    cases ht : trimHead path e.pfx with
    | some t0 =>
      rw [ht] at h
      simp only [Option.some.injEq, Prod.mk.injEq] at h
      obtain ⟨hpid, ht0⟩ := h
      rw [ht0] at ht
      refine ⟨e, List.mem_cons_self e rest, hpid, ht, ?_⟩
      intro f hf hmatch
      rcases List.mem_cons.mp hf with hfe | hfr
      · subst hfe
        exact Nat.le_refl _
      · exfalso
        cases hm : trimHead path f.pfx with
        | none => exact hmatch hm
        | some tf =>
          have hfp := trimHead_isPrefix path f.pfx tf hm
          have hep := trimHead_isPrefix path e.pfx t ht
          have hcomp := List.prefix_or_prefix_of_prefix hep hfp
          have : regsOverlap e.pfx f.pfx = true := by
            unfold regsOverlap
            rw [Bool.or_eq_true]
            rcases hcomp with hc | hc
            · exact Or.inl (List.isPrefixOf_iff_prefix.mpr hc)
            · exact Or.inr (List.isPrefixOf_iff_prefix.mpr hc)
          rw [he f hfr] at this
          exact Bool.false_ne_true this
    | none =>
      rw [ht] at h
      obtain ⟨e2, he2, hpid, hmatch2, hmax⟩ := ih hrest h
      refine ⟨e2, List.mem_cons_of_mem e he2, hpid, hmatch2, ?_⟩
      intro f hf hm
      rcases List.mem_cons.mp hf with hfe | hfr
      · subst hfe
        exact absurd ht hm
      · exact hmax f hfr hm

/-- Extracting the branch facts from a successful registry construction. -/
theorem newProviderRegistry_ok (entries regs : List ProviderReg)
    (h : newProviderRegistry entries = .ok regs) :
    entries ≠ []
    ∧ (entries.map normalizeReg).any (fun e => e.pfx.isEmpty) = false
    ∧ anyOverlap (entries.map normalizeReg) = false
    ∧ regs = sortByLenDesc (entries.map normalizeReg) := by
  unfold newProviderRegistry at h
  by_cases h1 : entries = []
  · rw [if_pos h1] at h
    exact absurd h (by simp)
  · rw [if_neg h1] at h
    by_cases h2 : (entries.map normalizeReg).any (fun e => e.pfx.isEmpty) = true
    · rw [if_pos h2] at h
      exact absurd h (by simp)
    · rw [if_neg h2] at h
      by_cases h3 : anyOverlap (entries.map normalizeReg) = true
      · rw [if_pos h3] at h
        exact absurd h (by simp)
      · rw [if_neg h3] at h
        simp only [Except.ok.injEq] at h
        refine ⟨h1, ?_, ?_, h.symm⟩
        · cases hb : (entries.map normalizeReg).any (fun e => e.pfx.isEmpty)
          · rfl
          · exact absurd hb h2
        · cases hb : anyOverlap (entries.map normalizeReg)
          · rfl
          · exact absurd hb h3

/-- Overlap is symmetric. -/
theorem regsOverlap_comm (a b : Str) : regsOverlap a b = regsOverlap b a :=
  Bool.or_comm _ _

/-- C5: registry construction fails for any entry list containing an
    empty path head, and for any pair of positions whose heads are
    string-leads of one another; in a successfully constructed registry,
    Resolve picks a matching entry of maximal head length among all
    matching entries; matching demands an exact match or a '/' right
    after the head in the path; and "/claudex" does not match "/claude". -/
theorem c5_registry_construction_and_resolve (entries : List ProviderReg) :
    ((∃ e ∈ entries, e.pfx = []) → ∀ regs, newProviderRegistry entries ≠ .ok regs)
    ∧ (∀ i j : Fin entries.length, i ≠ j →
        regsOverlap (entries.get i).pfx (entries.get j).pfx = true →
        ∀ regs, newProviderRegistry entries ≠ .ok regs)
    ∧ (∀ regs, newProviderRegistry entries = .ok regs →
        ∀ path pid t, resolveReg regs path = some (pid, t) →
          ∃ e ∈ regs, e.pid = pid ∧ trimHead path e.pfx = some t
            ∧ ∀ f ∈ regs, trimHead path f.pfx ≠ none → f.pfx.length ≤ e.pfx.length)
    ∧ (∀ path hd t, trimHead path hd = some t →
        hd <+: path ∧ (path = hd ∨ path[hd.length]? = some '/'))
    ∧ trimHead (gs "/claudex") (gs "/claude") = none := by
  refine ⟨?_, ?_, ?_, ?_, by decide⟩
  · rintro ⟨e, he, hpfx⟩ regs hok
    obtain ⟨h1, h2, h3, h4⟩ := newProviderRegistry_ok entries regs hok
    have hval : (normalizeReg e).pfx.isEmpty = true := by
      unfold normalizeReg
      rw [hpfx]
      show (goTrimSuffix [] (gs "/")).isEmpty = true
      decide
    have hmem : normalizeReg e ∈ entries.map normalizeReg := List.mem_map_of_mem _ he
    exact (List.any_eq_false.mp h2 _ hmem) hval
  · intro i j hij hov regs hok
    obtain ⟨h1, h2, h3, h4⟩ := newProviderRegistry_ok entries regs hok
    have hpw := (anyOverlap_eq_false_iff _).mp h3
    rw [List.pairwise_iff_get] at hpw
    have hlen : (entries.map normalizeReg).length = entries.length := List.length_map _ _
    have hov2 : regsOverlap (goTrimSuffix (entries.get i).pfx (gs "/"))
        (goTrimSuffix (entries.get j).pfx (gs "/")) = true :=
      regsOverlap_normalize _ _ hov
    rcases Nat.lt_or_ge i.val j.val with hlt | hge
    · have hres := hpw ⟨i.val, by omega⟩ ⟨j.val, by omega⟩ hlt
      have hgi : (entries.map normalizeReg).get ⟨i.val, by omega⟩
          = normalizeReg (entries.get i) := by
        simp [List.get_eq_getElem, List.getElem_map]
      have hgj : (entries.map normalizeReg).get ⟨j.val, by omega⟩
          = normalizeReg (entries.get j) := by
        simp [List.get_eq_getElem, List.getElem_map]
      rw [hgi, hgj] at hres
      unfold normalizeReg at hres
      rw [hres] at hov2
      exact Bool.false_ne_true hov2
    · have hlt2 : j.val < i.val := by
        rcases Nat.lt_or_ge j.val i.val with hc | hc
        · exact hc
        · exact absurd (Fin.ext (by omega)) hij
      have hres := hpw ⟨j.val, by omega⟩ ⟨i.val, by omega⟩ hlt2
      have hgi : (entries.map normalizeReg).get ⟨i.val, by omega⟩
          = normalizeReg (entries.get i) := by
        simp [List.get_eq_getElem, List.getElem_map]
      have hgj : (entries.map normalizeReg).get ⟨j.val, by omega⟩
          = normalizeReg (entries.get j) := by
        simp [List.get_eq_getElem, List.getElem_map]
      rw [hgi, hgj] at hres
      unfold normalizeReg at hres
      rw [regsOverlap_comm] at hov2
      rw [hres] at hov2
      exact Bool.false_ne_true hov2
  · intro regs hok path pid t hres
    obtain ⟨h1, h2, h3, h4⟩ := newProviderRegistry_ok entries regs hok
    have hpw := (anyOverlap_eq_false_iff _).mp h3
    have hperm : regs.Perm (entries.map normalizeReg) := h4 ▸ sortByLenDesc_perm _
    have hsymm : ∀ {x y : ProviderReg},
        regsOverlap x.pfx y.pfx = false → regsOverlap y.pfx x.pfx = false := by
      intro x y hxy
      rw [regsOverlap_comm]
      exact hxy
    have hpw2 : regs.Pairwise (fun a b => regsOverlap a.pfx b.pfx = false) :=
      (List.Perm.pairwise_iff hsymm hperm).mpr hpw
    exact resolveReg_longest regs path hpw2 pid t hres
  · intro path hd t h
    have hpre := trimHead_isPrefix path hd t h
    refine ⟨hpre, ?_⟩
    unfold trimHead at h
    have hb : hd.isPrefixOf path = true := List.isPrefixOf_iff_prefix.mpr hpre
    rw [hb] at h
    simp only [Bool.true_eq_false, if_false] at h
    by_cases hc : hd.length < path.length ∧ path[hd.length]? ≠ some '/'
    · rw [if_pos hc] at h
      exact absurd h (by simp)
    · push_neg at hc
      by_cases heq : path = hd
      · exact Or.inl heq
      · right
        have hle : hd.length ≤ path.length := hpre.length_le
        have hne : hd.length ≠ path.length := by
          intro hlen
          exact heq (hpre.eq_of_length hlen).symm
        exact hc (by omega)

/-- Witness for C5: a one-entry list with an empty path head is
    rejected by registry construction. -/
theorem c5_registry_construction_and_resolve_witness :
    newProviderRegistry [⟨gs "", gs "p1"⟩] ≠ .ok [] :=
  (c5_registry_construction_and_resolve [⟨gs "", gs "p1"⟩]).1
    ⟨⟨gs "", gs "p1"⟩, by decide⟩ []

/-- C10: in a successfully constructed registry each stored path head is
    the original entry's head with a trailing "/" trimmed at
    construction; every path accepted by trimPrefix yields a trimmed
    path that begins with '/'; and a path equal to the head itself
    yields exactly "/" — so BuildUpstreamRequest never receives an empty
    or non-slash-leading path. -/
theorem c10_trimmed_path_shape (entries regs : List ProviderReg)
    (hok : newProviderRegistry entries = .ok regs) :
    (∀ e ∈ regs, ∃ orig ∈ entries,
        e.pfx = goTrimSuffix orig.pfx (gs "/") ∧ e.pid = orig.pid)
    ∧ (∀ path hd t, trimHead path hd = some t → t.head? = some '/')
    ∧ (∀ hd : Str, trimHead hd hd = some (gs "/")) := by
  obtain ⟨h1, h2, h3, h4⟩ := newProviderRegistry_ok entries regs hok
  refine ⟨?_, ?_, ?_⟩
  · intro e he
    have hperm : regs.Perm (entries.map normalizeReg) := h4 ▸ sortByLenDesc_perm _
    have hmem : e ∈ entries.map normalizeReg := hperm.mem_iff.mp he
    obtain ⟨orig, horig, hor⟩ := List.mem_map.mp hmem
    refine ⟨orig, horig, ?_, ?_⟩
    · rw [← hor]
      rfl
    · rw [← hor]
      rfl
  · intro path hd t h
    unfold trimHead at h
    by_cases hb : hd.isPrefixOf path = false
    · rw [if_pos hb] at h
      exact absurd h (by simp)
    · rw [if_neg hb] at h
      by_cases hc : hd.length < path.length ∧ path[hd.length]? ≠ some '/'
      · rw [if_pos hc] at h
        exact absurd h (by simp)
      · rw [if_neg hc] at h
        by_cases hdn : path.drop hd.length = []
        · rw [if_pos hdn] at h
          simp only [Option.some.injEq] at h
          rw [← h]
          rfl
        · rw [if_neg hdn] at h
          have hlt : hd.length < path.length := by
            rw [List.drop_eq_nil_iff] at hdn
            omega
          have hget : path[hd.length]? = some '/' := by
            push_neg at hc
            exact hc hlt
          have hhead : (path.drop hd.length).head? = some '/' := by
            rw [List.head?_drop]
            exact hget
          have hsl : (gs "/").isPrefixOf (path.drop hd.length) = true := by
            cases hdrop : path.drop hd.length with
            | nil => exact absurd hdrop hdn
            | cons c rest =>
              rw [hdrop] at hhead
              simp only [List.head?_cons, Option.some.injEq] at hhead
              rw [hhead]
              rw [List.isPrefixOf_iff_prefix]
              exact ⟨rest, rfl⟩
          rw [hsl] at h
          simp only [Bool.true_eq_false, if_false, Option.some.injEq] at h
          rw [← h, List.head?_drop]
          exact hget
  · intro hd
    unfold trimHead
    have hb : hd.isPrefixOf hd = true :=
      List.isPrefixOf_iff_prefix.mpr (List.prefix_refl _)
    rw [hb]
    simp only [Bool.true_eq_false, if_false]
    have hc : ¬ (hd.length < hd.length ∧ hd[hd.length]? ≠ some '/') := by
      rintro ⟨hlt, _⟩
      omega
    rw [if_neg hc, if_pos (List.drop_length hd)]

/-- Witness for C10 at the real registration list: the registry of the
    "/claude" and "/chatgpt" providers resolves a path equal to a head
    to the trimmed path "/". -/
theorem c10_trimmed_path_shape_witness :
    trimHead (gs "/claude") (gs "/claude") = some (gs "/") :=
  (c10_trimmed_path_shape
      [⟨gs "/claude", gs "claude"⟩, ⟨gs "/chatgpt", gs "chatgpt"⟩]
      [⟨gs "/chatgpt", gs "chatgpt"⟩, ⟨gs "/claude", gs "claude"⟩]
      (by rfl)).2.2 (gs "/claude")

/- ---------------------------------------------------------------------
   Header handling (part_005:382-405) and the two providers'
   BuildUpstreamRequest (claude_provider.go:51-92, part_004:50-91).
   http.Header is an association list; inbound Go requests carry unique
   canonical keys, and the code's own comparisons are case-insensitive.
   --------------------------------------------------------------------- -/

/-- http.Header. -/
abbrev Header := List (Str × List Str)

/-- isHopByHop (part_005:382-393). -/
def isHopByHop (k : Str) : Bool :=
  if (gs "proxy-").isPrefixOf (lowerStr k) then true
  else (lowerStr k == gs "connection") || (lowerStr k == gs "keep-alive")
    || (lowerStr k == gs "te") || (lowerStr k == gs "trailers")
    || (lowerStr k == gs "transfer-encoding") || (lowerStr k == gs "upgrade")
    || (lowerStr k == gs "host")

/-- copyHeaders (part_005:395-405) into an initially empty destination:
    every downstream entry except hop-by-hop and Authorization. -/
def copyHeaders (src : Header) : Header :=
  src.filter (fun kv => !(isHopByHop kv.1) && !(equalFold kv.1 (gs "Authorization")))

/-- The first entry whose key folds to the given key. -/
def hFirst (h : Header) (k : Str) : Option (Str × List Str) :=
  h.find? (fun kv => equalFold kv.1 k)

/-- http.Header.Get: first value of the key, "" when absent. -/
def hGet (h : Header) (k : Str) : Str :=
  match hFirst h k with
  | some (_, v :: _) => v
  | _ => []

/-- All values stored for a key. -/
def hValues (h : Header) (k : Str) : List Str :=
  match hFirst h k with
  | some kv => kv.2
  | none => []

/-- http.Header.Del. -/
def hDel (h : Header) (k : Str) : Header :=
  h.filter (fun kv => !(equalFold kv.1 k))

/-- http.Header.Set: replace all values of the key. -/
def hSet (h : Header) (k v : Str) : Header := hDel h k ++ [(k, [v])]

/-- http.Header.Add: append to the key's values. -/
def hAdd (h : Header) (k v : Str) : Header :=
  if (hFirst h k).isSome then
    h.map (fun kv => if equalFold kv.1 k then (kv.1, kv.2 ++ [v]) else kv)
  else h ++ [(k, [v])]

/-- The providers' extra-header loop:
    `for key, values := range extra { for _, v := range values { Add } }`. -/
def hAddAll (h : Header) (extra : Header) : Header :=
  extra.foldl (fun acc kv => kv.2.foldl (fun a v => hAdd a kv.1 v) acc) h

/-- equalFold unfolded to lower-cased equality. -/
theorem equalFold_eq_true_iff (a b : Str) :
    equalFold a b = true ↔ lowerStr a = lowerStr b := by
  unfold equalFold
  exact decide_eq_true_iff

/-- equalFold is symmetric. -/
theorem equalFold_comm (a b : Str) : equalFold a b = equalFold b a := by
  unfold equalFold
  by_cases h : lowerStr a = lowerStr b
  · rw [h]
  · have h2 : lowerStr b ≠ lowerStr a := fun hc => h hc.symm
    simp [h, h2]

/-- equalFold is transitive. -/
theorem equalFold_trans (a b c : Str) (h1 : equalFold a b = true)
    (h2 : equalFold b c = true) : equalFold a c = true := by
  rw [equalFold_eq_true_iff] at h1 h2 ⊢
  exact h1.trans h2

/-- isHopByHop only depends on the lower-cased key. -/
theorem isHopByHop_fold (a b : Str) (h : equalFold a b = true) :
    isHopByHop a = isHopByHop b := by
  rw [equalFold_eq_true_iff] at h
  unfold isHopByHop
  rw [h]

/-- find? commutes with a filter that keeps everything the predicate
    already demands. -/
theorem find?_filter_of_imp {α : Type} (l : List α) (p q : α → Bool)
    (h : ∀ x, p x = true → q x = true) :
    (l.filter q).find? p = l.find? p := by
  induction l with
  | nil => rfl
  | cons a l ih =>
    by_cases hq : q a = true
    · rw [List.filter_cons_of_pos hq]
      by_cases hp : p a = true
      · rw [List.find?_cons_of_pos _ hp, List.find?_cons_of_pos _ hp]
      · rw [List.find?_cons_of_neg _ hp, List.find?_cons_of_neg _ hp, ih]
    · rw [List.filter_cons_of_neg hq]
      have hp : ¬ p a = true := fun hpa => hq (h a hpa)
      rw [List.find?_cons_of_neg _ hp, ih]

/-- Looking up a key unrelated to a deleted key is unchanged. -/
theorem hFirst_del_other (h : Header) (k k' : Str) (hk : equalFold k' k = false) :
    hFirst (hDel h k) k' = hFirst h k' := by
  unfold hFirst hDel
  apply find?_filter_of_imp
  intro kv hkv
  rw [Bool.not_eq_true']
  cases hc : equalFold kv.1 k
  · rfl
  · exfalso
    have : equalFold k' k = true :=
      equalFold_trans _ _ _ ((equalFold_comm kv.1 k') ▸ hkv) hc
    rw [this] at hk
    simp at hk

/-- Looking up the key of a fresh Set finds exactly the set value. -/
theorem hFirst_set_self (h : Header) (k v k' : Str) (hk : equalFold k' k = true) :
    hFirst (hSet h k v) k' = some (k, [v]) := by
  unfold hSet hFirst
  rw [List.find?_append]
  have hnone : (hDel h k).find? (fun kv => equalFold kv.1 k') = none := by
    rw [List.find?_eq_none]
    intro kv hkv
    rw [Bool.not_eq_true]
    unfold hDel at hkv
    have hkv2 := (List.mem_filter.mp hkv).2
    rw [Bool.not_eq_true'] at hkv2
    cases hc : equalFold kv.1 k'
    · rfl
    · exfalso
      have : equalFold kv.1 k = true := equalFold_trans _ _ _ hc hk
      rw [this] at hkv2
      simp at hkv2
  rw [hnone]
  have hself : equalFold k k' = true := (equalFold_comm k' k) ▸ hk
  simp [List.find?_cons_of_pos, hself]

/-- Looking up another key after a Set is unchanged. -/
theorem hFirst_set_other (h : Header) (k v k' : Str) (hk : equalFold k' k = false) :
    hFirst (hSet h k v) k' = hFirst h k' := by
  unfold hSet
  show (hDel h k ++ [(k, [v])]).find? (fun kv => equalFold kv.1 k') = hFirst h k'
  rw [List.find?_append]
  have htail : ([((k : Str), ([v] : List Str))]).find? (fun kv => equalFold kv.1 k') = none := by
    have hkk : equalFold k k' = false := (equalFold_comm k' k) ▸ hk
    simp [List.find?, hkk]
  rw [htail, Option.or_none]
  exact hFirst_del_other h k k' hk

/-- find? for an unrelated key ignores the value rewriting Add performs
    on the entries of its own key. -/
theorem find?_add_map (rest : Header) (k v k' : Str) (hk : equalFold k' k = false) :
    (rest.map (fun kv => if equalFold kv.1 k = true then (kv.1, kv.2 ++ [v]) else kv)).find?
        (fun kv => equalFold kv.1 k')
      = rest.find? (fun kv => equalFold kv.1 k') := by
  induction rest with
  | nil => rfl
  | cons a rest ih =>
    rw [List.map_cons]
    by_cases ha : equalFold a.1 k = true
    · rw [if_pos ha]
      have hne : equalFold a.1 k' = false := by
        cases hc : equalFold a.1 k'
        · rfl
        · exfalso
          have : equalFold k' k = true :=
            equalFold_trans _ _ _ ((equalFold_comm a.1 k') ▸ hc) ha
          rw [this] at hk
          simp at hk
      rw [List.find?_cons, List.find?_cons]
      show (match equalFold a.1 k' with
        | true => some (a.1, a.2 ++ [v])
        | false => (rest.map _).find? _) = _
      rw [hne]
      show (rest.map (fun kv => if equalFold kv.1 k = true then (kv.1, kv.2 ++ [v]) else kv)).find?
          (fun kv => equalFold kv.1 k') = _
      rw [ih]
    · rw [if_neg ha]
      rw [List.find?_cons, List.find?_cons]
      cases hc : equalFold a.1 k'
      · rw [ih]
      · rfl

/-- Looking up a key untouched by an Add is unchanged. -/
theorem hFirst_add_other (h : Header) (k v k' : Str) (hk : equalFold k' k = false) :
    hFirst (hAdd h k v) k' = hFirst h k' := by
  unfold hAdd
  split
  · exact find?_add_map h k v k' hk
  · unfold hFirst
    rw [List.find?_append]
    have htail : ([((k : Str), ([v] : List Str))]).find? (fun kv => equalFold kv.1 k') = none := by
      have hkk : equalFold k k' = false := (equalFold_comm k' k) ▸ hk
      simp [List.find?, hkk]
    rw [htail, Option.or_none]

/-- Copying drops nothing for a key that is neither hop-by-hop nor
    Authorization. -/
theorem hFirst_copy (h : Header) (k : Str) (hhop : isHopByHop k = false)
    (hauth : equalFold k (gs "Authorization") = false) :
    hFirst (copyHeaders h) k = hFirst h k := by
  unfold copyHeaders hFirst
  apply find?_filter_of_imp
  intro kv hkv
  have hhop2 : isHopByHop kv.1 = false := (isHopByHop_fold kv.1 k hkv) ▸ hhop
  have hauth2 : equalFold kv.1 (gs "Authorization") = false := by
    cases hc : equalFold kv.1 (gs "Authorization")
    · rfl
    · exfalso
      have : equalFold k (gs "Authorization") = true :=
        equalFold_trans _ _ _ ((equalFold_comm kv.1 k) ▸ hkv) hc
      rw [this] at hauth
      simp at hauth
  rw [hhop2, hauth2]
  rfl

/-- Entries of a Del come from the original header. -/
theorem mem_hDel (h : Header) (k : Str) (kv : Str × List Str) (hm : kv ∈ hDel h k) :
    kv ∈ h ∧ equalFold kv.1 k = false := by
  unfold hDel at hm
  have := List.mem_filter.mp hm
  refine ⟨this.1, ?_⟩
  have h2 := this.2
  rw [Bool.not_eq_true'] at h2
  exact h2

/-- Entries of a Set are the set pair or untouched originals. -/
theorem mem_hSet (h : Header) (k v : Str) (kv : Str × List Str) (hm : kv ∈ hSet h k v) :
    kv = (k, [v]) ∨ (kv ∈ h ∧ equalFold kv.1 k = false) := by
  unfold hSet at hm
  rcases List.mem_append.mp hm with hl | hr
  · exact Or.inr (mem_hDel h k kv hl)
  · exact Or.inl (List.mem_singleton.mp hr)

/-- Entries of an Add are the added pair, an original with the added
    value appended (same key), or an untouched original. -/
theorem mem_hAdd (h : Header) (k v : Str) (kv : Str × List Str) (hm : kv ∈ hAdd h k v) :
    kv = (k, [v])
    ∨ (∃ kv2 ∈ h, equalFold kv2.1 k = true ∧ kv = (kv2.1, kv2.2 ++ [v]))
    ∨ (kv ∈ h ∧ equalFold kv.1 k = false) := by
  unfold hAdd at hm
  split at hm
  · obtain ⟨kv2, hkv2, hmap⟩ := List.mem_map.mp hm
    by_cases hf : equalFold kv2.1 k = true
    · rw [if_pos hf] at hmap
      exact Or.inr (Or.inl ⟨kv2, hkv2, hf, hmap.symm⟩)
    · rw [if_neg hf] at hmap
      rw [← hmap]
      refine Or.inr (Or.inr ⟨hkv2, ?_⟩)
      rw [Bool.not_eq_true] at hf
      exact hf
  · rcases List.mem_append.mp hm with hl | hr
    · by_cases hf : equalFold kv.1 k = true
      · exfalso
        rename_i hnone
        have : hFirst h k = none := Option.not_isSome_iff_eq_none.mp hnone
        unfold hFirst at this
        exact (List.find?_eq_none.mp this kv hl) hf
      · rw [Bool.not_eq_true] at hf
        exact Or.inr (Or.inr ⟨hl, hf⟩)
    · exact Or.inl (List.mem_singleton.mp hr)

/-- Entries of a copy are originals that are neither hop-by-hop nor
    Authorization. -/
theorem mem_copyHeaders (h : Header) (kv : Str × List Str) (hm : kv ∈ copyHeaders h) :
    kv ∈ h ∧ isHopByHop kv.1 = false ∧ equalFold kv.1 (gs "Authorization") = false := by
  unfold copyHeaders at hm
  have := List.mem_filter.mp hm
  refine ⟨this.1, ?_, ?_⟩
  · have h2 := this.2
    rw [Bool.and_eq_true, Bool.not_eq_true'] at h2
    exact h2.1
  · have h2 := this.2
    rw [Bool.and_eq_true, Bool.not_eq_true', Bool.not_eq_true'] at h2
    exact h2.2

/-- After a Set, every entry folding to the set key is the set pair. -/
theorem hSet_fold_unique (h : Header) (k v : Str) (kv : Str × List Str)
    (hm : kv ∈ hSet h k v) (hf : equalFold kv.1 k = true) : kv = (k, [v]) := by
  rcases mem_hSet h k v kv hm with he | ⟨_, hne⟩
  · exact he
  · rw [hf] at hne
    simp at hne

/-- claudeBetaValue (claude_provider.go:16). -/
def claudeBetaValue : Str := gs "oauth-2025-04-20"

/-- The anthropic-beta header key. -/
def betaKey : Str := gs "anthropic-beta"

/-- The Authorization header key. -/
def authKey : Str := gs "Authorization"

/-- The ChatGPT-Account-Id header key. -/
def acctKey : Str := gs "ChatGPT-Account-Id"

/-- ClaudeHeaderProvider.ExtraHeaders (claude_store.go:147-150): none. -/
def claudeExtraHeaders (_ : Metadata) : Header := []

/-- ChatGPTHeaderProvider.ExtraHeaders (part_003:148-161). -/
def chatgptExtraHeaders : Metadata → Header
  | .chatgpt _ accountId _ =>
    if accountId = [] then [] else [(acctKey, [accountId])]
  | _ => []

/-- CredentialManager.ExtraHeaders' metadata snapshot (part_005:613-626):
    nil when no record is loaded. -/
def managerMetadata (m : ManagerState) : Metadata :=
  match m.creds with
  | some c => c.metadata
  | none => .null

/-- The constructed upstream request: URL path, raw query, headers. -/
structure UpstreamReq where
  path : Str
  query : Str
  headers : Header
deriving DecidableEq

/-- ClaudeProvider.buildURL (claude_provider.go:87-92): base path with a
    trailing "/" trimmed, then the trimmed request path. -/
def claudeBuildURLPath (basePath p : Str) : Str :=
  goTrimSuffix basePath (gs "/") ++ p

/-- ChatGPTProvider.buildURL (part_004:81-91): additionally strips a
    leading "/v1" segment. -/
def chatgptBuildURLPath (basePath p : Str) : Str :=
  goTrimSuffix basePath (gs "/")
    ++ (if goTrimLead p (gs "/v1") = [] then gs "/" else goTrimLead p (gs "/v1"))

/-- The header block of ClaudeProvider.BuildUpstreamRequest
    (claude_provider.go:58-83): copy minus hop-by-hop and Authorization,
    merge the beta header with any client value, set Authorization from
    the manager, add the provider's extra headers (none for Claude). -/
def claudeUpstreamHeaders (m : ManagerState) (downstream : Header) (auth : Str) : Header :=
  hAddAll
    (hSet
      (hSet (copyHeaders downstream) betaKey
        (if hGet (copyHeaders downstream) betaKey = [] then claudeBetaValue
         else claudeBetaValue ++ gs "," ++ hGet (copyHeaders downstream) betaKey))
      authKey auth)
    (claudeExtraHeaders (managerMetadata m))

/-- ClaudeProvider.BuildUpstreamRequest (claude_provider.go:51-85). -/
def claudeBuildUpstreamRequest (m : ManagerState) (now : GoTime) (basePath : Str)
    (downstream : Header) (trimmedPath rawQuery : Str) : Except Str UpstreamReq :=
  match authorizationHeader m now with
  | .error e => .error e
  | .ok auth =>
    .ok ⟨claudeBuildURLPath basePath trimmedPath, rawQuery,
         claudeUpstreamHeaders m downstream auth⟩

/-- The header block of ChatGPTProvider.BuildUpstreamRequest
    (part_004:56-77): copy minus hop-by-hop and Authorization, delete
    the Anthropic-only beta header, set Authorization from the manager,
    add the account-id extra header. -/
def chatgptUpstreamHeaders (m : ManagerState) (downstream : Header) (auth : Str) : Header :=
  hAddAll (hSet (hDel (copyHeaders downstream) betaKey) authKey auth)
    (chatgptExtraHeaders (managerMetadata m))

/-- ChatGPTProvider.BuildUpstreamRequest (part_004:50-79). -/
def chatgptBuildUpstreamRequest (m : ManagerState) (now : GoTime) (basePath : Str)
    (downstream : Header) (trimmedPath rawQuery : Str) : Except Str UpstreamReq :=
  match authorizationHeader m now with
  | .error e => .error e
  | .ok auth =>
    .ok ⟨chatgptBuildURLPath basePath trimmedPath, rawQuery,
         chatgptUpstreamHeaders m downstream auth⟩

/-- C8: with the real registration list, "/claude/v1/models" resolves to
    the claude provider with trimmed path "/v1/models" and, under a
    valid access token "token-a" and an upstream base with empty path
    (the scenario's echo server), the built upstream request has path
    "/v1/models" and Authorization "Bearer token-a";
    "/chatgpt/v1/chat/completions" resolves to the chatgpt provider and
    its URL rule rewrites the trimmed path to "/chat/completions". -/
theorem c8_provider_scenarios :
    (newProviderRegistry [⟨gs "/claude", gs "claude"⟩, ⟨gs "/chatgpt", gs "chatgpt"⟩]
        = .ok [⟨gs "/chatgpt", gs "chatgpt"⟩, ⟨gs "/claude", gs "claude"⟩])
    ∧ resolveReg [⟨gs "/chatgpt", gs "chatgpt"⟩, ⟨gs "/claude", gs "claude"⟩]
        (gs "/claude/v1/models") = some (gs "claude", gs "/v1/models")
    ∧ resolveReg [⟨gs "/chatgpt", gs "chatgpt"⟩, ⟨gs "/claude", gs "claude"⟩]
        (gs "/chatgpt/v1/chat/completions") = some (gs "chatgpt", gs "/v1/chat/completions")
    ∧ claudeBuildUpstreamRequest (loadedState ⟨gs "token-a", gs "rt", GoTime.zero, .null⟩ 0 0)
        ⟨0⟩ [] [] (gs "/v1/models") []
        = .ok ⟨gs "/v1/models", [],
            [(betaKey, [claudeBetaValue]), (authKey, [gs "Bearer token-a"])]⟩
    ∧ hValues [((betaKey : Str), ([claudeBetaValue] : List Str)),
        ((authKey : Str), ([gs "Bearer token-a"] : List Str))] authKey
        = [gs "Bearer token-a"]
    ∧ chatgptBuildURLPath [] (gs "/v1/chat/completions") = gs "/chat/completions" := by
  refine ⟨by rfl, by rfl, by rfl, by rfl, by rfl, by rfl⟩

/-- equalFold is reflexive. -/
theorem equalFold_refl (a : Str) : equalFold a a = true := by
  rw [equalFold_eq_true_iff]

/-- Successful Claude build unpacked. -/
theorem claudeBuild_ok (m : ManagerState) (now : GoTime) (basePath : Str)
    (d : Header) (tp q : Str) (req : UpstreamReq)
    (h : claudeBuildUpstreamRequest m now basePath d tp q = .ok req) :
    ∃ auth, authorizationHeader m now = .ok auth
      ∧ req = ⟨claudeBuildURLPath basePath tp, q, claudeUpstreamHeaders m d auth⟩ := by
  unfold claudeBuildUpstreamRequest at h
  cases ha : authorizationHeader m now with
  | error e =>
    rw [ha] at h
    exact absurd h (by simp)
  | ok auth =>
    rw [ha] at h
    simp only [Except.ok.injEq] at h
    exact ⟨auth, rfl, h.symm⟩

/-- Successful ChatGPT build unpacked. -/
theorem chatgptBuild_ok (m : ManagerState) (now : GoTime) (basePath : Str)
    (d : Header) (tp q : Str) (req : UpstreamReq)
    (h : chatgptBuildUpstreamRequest m now basePath d tp q = .ok req) :
    ∃ auth, authorizationHeader m now = .ok auth
      ∧ req = ⟨chatgptBuildURLPath basePath tp, q, chatgptUpstreamHeaders m d auth⟩ := by
  unfold chatgptBuildUpstreamRequest at h
  cases ha : authorizationHeader m now with
  | error e =>
    rw [ha] at h
    exact absurd h (by simp)
  | ok auth =>
    rw [ha] at h
    simp only [Except.ok.injEq] at h
    exact ⟨auth, rfl, h.symm⟩

/-- The ChatGPT extra-header block is empty or one account-id entry. -/
theorem chatgptExtra_shape (md : Metadata) :
    chatgptExtraHeaders md = []
    ∨ ∃ accountId, chatgptExtraHeaders md = [(acctKey, [accountId])] := by
  cases md with
  | chatgpt idToken accountId apiKey =>
    by_cases ha : accountId = []
    · left
      simp [chatgptExtraHeaders, ha]
    · right
      exact ⟨accountId, by simp [chatgptExtraHeaders, ha]⟩
  | null => exact Or.inl rfl
  | claude s t x r => exact Or.inl rfl

/-- C6 fails on the code: the claim demands that every ordinary
    downstream header (not hop-by-hop, not Authorization) is copied
    through unchanged, but the ChatGPT provider deletes the client's
    anthropic-beta header: with a valid token, downstream headers
    anthropic-beta: ext-beta and User-Agent: ua produce an upstream
    request whose anthropic-beta values are empty. -/
theorem c6_counterexample :
    chatgptBuildUpstreamRequest (loadedState ⟨gs "tok", gs "rt", GoTime.zero, .null⟩ 0 0) ⟨0⟩ []
        [(gs "anthropic-beta", [gs "ext-beta"]), (gs "User-Agent", [gs "ua"])] (gs "/x") []
      = .ok ⟨gs "/x", [],
          [(gs "User-Agent", [gs "ua"]), (authKey, [gs "Bearer tok"])]⟩
    ∧ isHopByHop (gs "anthropic-beta") = false
    ∧ equalFold (gs "anthropic-beta") (gs "Authorization") = false
    ∧ hValues [((gs "User-Agent" : Str), ([gs "ua"] : List Str)),
        ((authKey : Str), ([gs "Bearer tok"] : List Str))] (gs "anthropic-beta") = []
    ∧ hValues [((gs "anthropic-beta" : Str), ([gs "ext-beta"] : List Str)),
        ((gs "User-Agent" : Str), ([gs "ua"] : List Str))] (gs "anthropic-beta")
        = [gs "ext-beta"] := by
  refine ⟨by rfl, by rfl, by rfl, by rfl, by rfl⟩

/-- The Claude header block with its empty extra-header fold removed. -/
theorem claudeUpstreamHeaders_eq (m : ManagerState) (d : Header) (auth : Str) :
    claudeUpstreamHeaders m d auth
      = hSet (hSet (copyHeaders d) betaKey
          (if hGet (copyHeaders d) betaKey = [] then claudeBetaValue
           else claudeBetaValue ++ gs "," ++ hGet (copyHeaders d) betaKey)) authKey auth := rfl

/-- No entry of the common ChatGPT header base is hop-by-hop. -/
theorem chatgptBase_hop (d : Header) (auth : Str) (kv : Str × List Str)
    (hkv : kv ∈ hSet (hDel (copyHeaders d) betaKey) authKey auth) :
    isHopByHop kv.1 = false := by
  rcases mem_hSet _ _ _ _ hkv with he | ⟨hkv2, _⟩
  · rw [he]
    show isHopByHop authKey = false
    decide
  · exact (mem_copyHeaders d kv (mem_hDel _ _ _ hkv2).1).2.1

/-- C6 amended: for both providers a successfully built upstream
    request carries no hop-by-hop header; its only Authorization entry
    is the manager's Bearer token, so the inbound Authorization value
    never survives; and every downstream header other than hop-by-hop,
    Authorization and the provider-specific protocol headers
    (anthropic-beta — merged by Claude, stripped by ChatGPT — and
    ChatGPT-Account-Id, which ChatGPT may append to) is carried through
    unchanged. -/
theorem c6_header_handling (m : ManagerState) (now : GoTime) (basePath : Str)
    (d : Header) (tp q : Str) :
    (∀ req, claudeBuildUpstreamRequest m now basePath d tp q = .ok req →
      ∃ auth, authorizationHeader m now = .ok auth
        ∧ (∀ kv ∈ req.headers, isHopByHop kv.1 = false)
        ∧ (∀ kv ∈ req.headers, equalFold kv.1 authKey = true → kv = (authKey, [auth]))
        ∧ hValues req.headers authKey = [auth]
        ∧ (∀ k, isHopByHop k = false → equalFold k authKey = false →
            equalFold k betaKey = false → hValues req.headers k = hValues d k))
    ∧ (∀ req, chatgptBuildUpstreamRequest m now basePath d tp q = .ok req →
      ∃ auth, authorizationHeader m now = .ok auth
        ∧ (∀ kv ∈ req.headers, isHopByHop kv.1 = false)
        ∧ (∀ kv ∈ req.headers, equalFold kv.1 authKey = true → kv = (authKey, [auth]))
        ∧ hValues req.headers authKey = [auth]
        ∧ (∀ k, isHopByHop k = false → equalFold k authKey = false →
            equalFold k betaKey = false → equalFold k acctKey = false →
            hValues req.headers k = hValues d k)) := by
  constructor
  · intro req hok
    obtain ⟨auth, hauth, hreq⟩ := claudeBuild_ok m now basePath d tp q req hok
    have hH : req.headers = claudeUpstreamHeaders m d auth := by rw [hreq]
    rw [claudeUpstreamHeaders_eq] at hH
    refine ⟨auth, hauth, ?_, ?_, ?_, ?_⟩ <;> rw [hH]
    · intro kv hkv
      rcases mem_hSet _ _ _ _ hkv with he | ⟨hkv2, _⟩
      · rw [he]
        show isHopByHop authKey = false
        decide
      · rcases mem_hSet _ _ _ _ hkv2 with he2 | ⟨hkv3, _⟩
        · rw [he2]
          show isHopByHop betaKey = false
          decide
        · exact (mem_copyHeaders d kv hkv3).2.1
    · intro kv hkv hf
      exact hSet_fold_unique _ _ _ kv hkv hf
    · unfold hValues
      rw [hFirst_set_self _ authKey auth authKey (equalFold_refl authKey)]
    · intro k hhop hka hkb
      unfold hValues
      rw [hFirst_set_other _ authKey auth k hka,
          hFirst_set_other _ betaKey _ k hkb,
          hFirst_copy d k hhop hka]
  · intro req hok
    obtain ⟨auth, hauth, hreq⟩ := chatgptBuild_ok m now basePath d tp q req hok
    have hH : req.headers = chatgptUpstreamHeaders m d auth := by rw [hreq]
    rcases chatgptExtra_shape (managerMetadata m) with hsh | ⟨accountId, hsh⟩
    · have hHH : chatgptUpstreamHeaders m d auth
          = hSet (hDel (copyHeaders d) betaKey) authKey auth := by
        unfold chatgptUpstreamHeaders
        rw [hsh]
        rfl
      rw [hHH] at hH
      refine ⟨auth, hauth, ?_, ?_, ?_, ?_⟩ <;> rw [hH]
      · exact chatgptBase_hop d auth
      · intro kv hkv hf
        exact hSet_fold_unique _ _ _ kv hkv hf
      · unfold hValues
        rw [hFirst_set_self _ authKey auth authKey (equalFold_refl authKey)]
      · intro k hhop hka hkb hkc
        unfold hValues
        rw [hFirst_set_other _ authKey auth k hka,
            hFirst_del_other _ betaKey k hkb,
            hFirst_copy d k hhop hka]
    · have hHH : chatgptUpstreamHeaders m d auth
          = hAdd (hSet (hDel (copyHeaders d) betaKey) authKey auth) acctKey accountId := by
        unfold chatgptUpstreamHeaders
        rw [hsh]
        rfl
      rw [hHH] at hH
      refine ⟨auth, hauth, ?_, ?_, ?_, ?_⟩ <;> rw [hH]
      · intro kv hkv
        rcases mem_hAdd _ _ _ _ hkv with he | ⟨kv2, hkv2, hf2, he2⟩ | ⟨hkv2, _⟩
        · rw [he]
          show isHopByHop acctKey = false
          decide
        · have hbase := chatgptBase_hop d auth kv2 hkv2
          rw [he2]
          exact hbase
        · exact chatgptBase_hop d auth kv hkv2
      · intro kv hkv hf
        rcases mem_hAdd _ _ _ _ hkv with he | ⟨kv2, hkv2, hf2, he2⟩ | ⟨hkv2, _⟩
        · exfalso
          rw [he] at hf
          have hfa : equalFold acctKey authKey = true := hf
          exact absurd hfa (by decide)
        · exfalso
          rw [he2] at hf
          have hf2a : equalFold kv2.1 authKey = true := hf
          have hcontr : equalFold authKey acctKey = true :=
            equalFold_trans _ _ _ ((equalFold_comm kv2.1 authKey) ▸ hf2a) hf2
          exact absurd hcontr (by decide)
        · exact hSet_fold_unique _ _ _ kv hkv2 hf
      · unfold hValues
        rw [hFirst_add_other _ acctKey accountId authKey (by decide),
            hFirst_set_self _ authKey auth authKey (equalFold_refl authKey)]
      · intro k hhop hka hkb hkc
        unfold hValues
        rw [hFirst_add_other _ acctKey accountId k hkc,
            hFirst_set_other _ authKey auth k hka,
            hFirst_del_other _ betaKey k hkb,
            hFirst_copy d k hhop hka]

/-- Witness for the amended C6: an ordinary downstream header
    (User-Agent) passes through the ChatGPT build unchanged. -/
theorem c6_header_handling_witness :
    hValues
      (chatgptUpstreamHeaders (loadedState ⟨gs "tok", gs "rt", GoTime.zero, .null⟩ 0 0)
        [(gs "User-Agent", [gs "ua"])] (gs "Bearer tok"))
      (gs "User-Agent") = [gs "ua"] := by
  obtain ⟨auth, hauth, hhop, huniq, hvala, hunch⟩ :=
    (c6_header_handling (loadedState ⟨gs "tok", gs "rt", GoTime.zero, .null⟩ 0 0)
      ⟨0⟩ [] [(gs "User-Agent", [gs "ua"])] (gs "/x") []).2
      ⟨gs "/x", [],
        chatgptUpstreamHeaders (loadedState ⟨gs "tok", gs "rt", GoTime.zero, .null⟩ 0 0)
          [(gs "User-Agent", [gs "ua"])] (gs "Bearer tok")⟩ (by rfl)
  have hu := hunch (gs "User-Agent") (by decide) (by decide) (by decide) (by decide)
  rw [hu]
  rfl

/- ---------------------------------------------------------------------
   Credential stores (claude_store.go, part_003): on-disk records, the
   DO↔PO conversions of Save/Load, and readFile's error conditions. The
   file system is abstracted to a stat outcome plus a parse outcome.
   --------------------------------------------------------------------- -/

/-- claudeCredentialData, the Claude on-disk record (claude_store.go:27-35). -/
structure ClaudePO where
  accessToken : Str
  refreshToken : Str
  expiresAtMs : Int
  scopes : List Str
  subscriptionType : Str
  isMax : Bool
  rateLimitTier : Str
deriving DecidableEq

/-- ClaudeStore.Save's record conversion (claude_store.go:75-95):
    ExpiresAt as epoch milliseconds when set, metadata fields when the
    record carries Claude metadata. -/
def claudeSaveToPO (c : TokenCredentials) : ClaudePO :=
  match c.metadata with
  | .claude s t b r =>
    ⟨c.accessToken, c.refreshToken,
      if c.expiresAt.isZero then 0 else c.expiresAt.unixMilli, s, t, b, r⟩
  | _ =>
    ⟨c.accessToken, c.refreshToken,
      if c.expiresAt.isZero then 0 else c.expiresAt.unixMilli, [], [], false, []⟩

/-- ClaudeStore.Load's record conversion (claude_store.go:54-71). -/
def claudeLoadFromPO (po : ClaudePO) : TokenCredentials :=
  { accessToken := po.accessToken
    refreshToken := po.refreshToken
    expiresAt := if po.expiresAtMs > 0 then timeUnixMilli po.expiresAtMs else GoTime.zero
    metadata := .claude po.scopes po.subscriptionType po.isMax po.rateLimitTier }

/-- chatGPTCredentialFile, the ChatGPT on-disk record (part_003:22-33). -/
structure ChatGPTPO where
  apiKey : Str
  accessToken : Str
  idToken : Str
  refreshToken : Str
  accountId : Str
  lastRefresh : GoTime
deriving DecidableEq

/-- chatGPTDefaultTokenExpiry = 8 days (part_003:37), in nanoseconds. -/
def chatGPTDefaultTokenExpiry : Dur := 691200000000000

/-- ChatGPTStore.Save's record conversion (part_003:81-99); LastRefresh
    is the clock reading time.Now().UTC() at save time; ExpiresAt is not
    persisted at all. -/
def chatgptSaveToPO (c : TokenCredentials) (saveNow : GoTime) : ChatGPTPO :=
  match c.metadata with
  | .chatgpt idToken accountId apiKey =>
    ⟨apiKey, c.accessToken, idToken, c.refreshToken, accountId, saveNow⟩
  | _ => ⟨[], c.accessToken, [], c.refreshToken, [], saveNow⟩

/-- ChatGPTStore.Load's record conversion (part_003:60-77): ExpiresAt is
    estimated as LastRefresh plus the 8-day default expiry. -/
def chatgptLoadFromPO (po : ChatGPTPO) : TokenCredentials :=
  { accessToken := po.accessToken
    refreshToken := po.refreshToken
    expiresAt := if po.lastRefresh.isZero = false
      then po.lastRefresh.add chatGPTDefaultTokenExpiry else GoTime.zero
    metadata := .chatgpt po.idToken po.accountId po.apiKey }

/-- os.Stat outcome for a credential file. -/
inductive FileStat
  | absent
  | present (perm : Nat)
deriving DecidableEq

/-- Parse outcome of the Claude credential file: malformed JSON, JSON
    without the claudeAiOauth wrapper, or a parsed record. -/
inductive ClaudeFileContent
  | malformed
  | parsed (wrapper : Option ClaudePO)
deriving DecidableEq

/-- Parse outcome of the ChatGPT credential file. -/
inductive ChatGPTFileContent
  | malformed
  | parsed (po : ChatGPTPO)
deriving DecidableEq

/-- The distinct error conditions of the stores' readFile/Load. -/
inductive StoreErr
  | notExist
  | insecurePerm
  | parseFailed
  | missingWrapper
  | missingRefreshToken
deriving DecidableEq

/-- ClaudeStore.readFile (claude_store.go:98-125): stat error, the
    permission check `perm & 0o077 != 0`, JSON parse, wrapper check.
    There is no refresh-token check. -/
def claudeReadFile (fs : FileStat) (content : ClaudeFileContent) : Except StoreErr ClaudePO :=
  match fs with
  | .absent => .error .notExist
  | .present perm =>
    if perm &&& 0o77 ≠ 0 then .error .insecurePerm
    else match content with
      | .malformed => .error .parseFailed
      | .parsed none => .error .missingWrapper
      | .parsed (some po) => .ok po

/-- ClaudeStore.Load (claude_store.go:48-72): any readFile error is
    fatal, including an absent file. -/
def claudeLoad (fs : FileStat) (content : ClaudeFileContent) : Except StoreErr TokenCredentials :=
  match claudeReadFile fs content with
  | .error e => .error e
  | .ok po => .ok (claudeLoadFromPO po)

/-- ChatGPTStore.readFile (part_003:102-128), including the
    tokens.refresh_token schema check. -/
def chatgptReadFile (fs : FileStat) (content : ChatGPTFileContent) : Except StoreErr ChatGPTPO :=
  match fs with
  | .absent => .error .notExist
  | .present perm =>
    if perm &&& 0o77 ≠ 0 then .error .insecurePerm
    else match content with
      | .malformed => .error .parseFailed
      | .parsed po =>
        if po.refreshToken = [] then .error .missingRefreshToken else .ok po

/-- ChatGPTStore.Load (part_003:50-78): an absent file is "no
    credentials yet" — the empty record, no error. -/
def chatgptLoad (fs : FileStat) (content : ChatGPTFileContent) : Except StoreErr TokenCredentials :=
  match chatgptReadFile fs content with
  | .error .notExist => .ok ⟨[], [], GoTime.zero, .null⟩
  | .error e => .error e
  | .ok po => .ok (chatgptLoadFromPO po)

/-- C7 fails on the code: the ChatGPT store does not persist ExpiresAt —
    Save writes only LastRefresh := now, and Load recomputes ExpiresAt
    as LastRefresh + 8 days. A record with ExpiresAt at the Unix epoch
    does not round-trip. -/
theorem c7_counterexample :
    chatgptLoadFromPO (chatgptSaveToPO ⟨gs "a", gs "r", ⟨0⟩, .chatgpt [] [] []⟩ ⟨0⟩)
      ≠ ⟨gs "a", gs "r", ⟨0⟩, .chatgpt [] [] []⟩ := by decide

/-- C7 amended: both stores round-trip AccessToken and RefreshToken; a
    record carrying the provider's own metadata round-trips it; the
    Claude store round-trips ExpiresAt exactly when it is unset or a
    positive whole-millisecond timestamp; the ChatGPT store does not
    persist ExpiresAt — after Save at clock time saveNow, Load returns
    ExpiresAt = saveNow + the 8-day default expiry. -/
theorem c7_round_trip (c : TokenCredentials) :
    ((claudeLoadFromPO (claudeSaveToPO c)).accessToken = c.accessToken
      ∧ (claudeLoadFromPO (claudeSaveToPO c)).refreshToken = c.refreshToken
      ∧ (∀ s t b r, c.metadata = .claude s t b r →
          (claudeLoadFromPO (claudeSaveToPO c)).metadata = c.metadata)
      ∧ (c.expiresAt.isZero = true →
          (claudeLoadFromPO (claudeSaveToPO c)).expiresAt = c.expiresAt)
      ∧ (c.expiresAt.unixMilli > 0 → timeUnixMilli c.expiresAt.unixMilli = c.expiresAt →
          (claudeLoadFromPO (claudeSaveToPO c)).expiresAt = c.expiresAt))
    ∧ (∀ saveNow : GoTime,
      (chatgptLoadFromPO (chatgptSaveToPO c saveNow)).accessToken = c.accessToken
      ∧ (chatgptLoadFromPO (chatgptSaveToPO c saveNow)).refreshToken = c.refreshToken
      ∧ (∀ i a k, c.metadata = .chatgpt i a k →
          (chatgptLoadFromPO (chatgptSaveToPO c saveNow)).metadata = c.metadata)
      ∧ (saveNow.isZero = false →
          (chatgptLoadFromPO (chatgptSaveToPO c saveNow)).expiresAt
            = saveNow.add chatGPTDefaultTokenExpiry)) := by
  constructor
  · refine ⟨?_, ?_, ?_, ?_, ?_⟩
    · cases hm : c.metadata <;> simp [claudeSaveToPO, claudeLoadFromPO, hm]
    · cases hm : c.metadata <;> simp [claudeSaveToPO, claudeLoadFromPO, hm]
    · intro s t b r hm
      simp [claudeSaveToPO, claudeLoadFromPO, hm]
    · intro hzt
      have hce : c.expiresAt = GoTime.zero := by
        unfold GoTime.isZero at hzt
        rw [decide_eq_true_eq] at hzt
        exact congrArg GoTime.mk hzt
      have h1 : GoTime.isZero GoTime.zero = true := by decide
      have h2 : ¬ ((0 : Int) > 0) := by decide
      cases hm : c.metadata <;>
        simp [claudeSaveToPO, claudeLoadFromPO, hm, hce, h1, h2]
    · intro hpos hms
      have hz2 : GoTime.isZero c.expiresAt = false := by
        cases hb : GoTime.isZero c.expiresAt
        · rfl
        · exfalso
          unfold GoTime.isZero at hb
          rw [decide_eq_true_eq] at hb
          have hneg : GoTime.unixMilli c.expiresAt = -62135596800000 := by
            unfold GoTime.unixMilli
            rw [hb]
            decide
          rw [hneg] at hpos
          exact absurd hpos (by decide)
      cases hm : c.metadata <;>
        simp [claudeSaveToPO, claudeLoadFromPO, hm, hz2, hpos, hms]
  · intro saveNow
    refine ⟨?_, ?_, ?_, ?_⟩
    · cases hm : c.metadata <;> simp [chatgptSaveToPO, chatgptLoadFromPO, hm]
    · cases hm : c.metadata <;> simp [chatgptSaveToPO, chatgptLoadFromPO, hm]
    · intro i a k hm
      simp [chatgptSaveToPO, chatgptLoadFromPO, hm]
    · intro hnz
      cases hm : c.metadata <;> simp [chatgptSaveToPO, chatgptLoadFromPO, hm, hnz]

/-- Witness for the amended C7 at a concrete Claude record with a
    positive whole-millisecond expiry. -/
theorem c7_round_trip_witness :
    (claudeLoadFromPO (claudeSaveToPO
        ⟨gs "at", gs "rt", ⟨987654321000000⟩, .claude [gs "s"] (gs "max") true (gs "t1")⟩)).expiresAt
      = (⟨987654321000000⟩ : GoTime) :=
  ((c7_round_trip
      ⟨gs "at", gs "rt", ⟨987654321000000⟩, .claude [gs "s"] (gs "max") true (gs "t1")⟩).1.2.2.2.2
    (by decide) (by decide))

/-- C9 fails on the code: the claim demands a schema-validation failure
    for each provider's store when RefreshToken is missing/empty, but
    the Claude store's readFile performs no refresh-token check — a
    well-permissioned file whose claudeAiOauth record has an empty
    refreshToken loads without error. -/
theorem c9_counterexample :
    claudeLoad (.present 0o600) (.parsed (some ⟨gs "at", [], 0, [], [], false, []⟩))
      = .ok (claudeLoadFromPO ⟨gs "at", [], 0, [], [], false, []⟩)
    ∧ (claudeLoadFromPO ⟨gs "at", [], 0, [], [], false, []⟩).refreshToken = [] := by
  exact ⟨by rfl, by rfl⟩

/-- C9 amended: both stores fail with a distinct error when the file's
    permissions grant any access beyond owner read/write, and when the
    file fails schema validation — for the ChatGPT store in particular
    when tokens.refresh_token is missing/empty, for the Claude store
    when the claudeAiOauth wrapper is missing (an empty refreshToken is
    accepted by the Claude store at load time); an absent file is fatal
    for the Claude store, while the ChatGPT store returns an empty
    record without error. -/
theorem c9_load_errors (perm : Nat) (cc : ClaudeFileContent) (gc : ChatGPTFileContent) :
    (perm &&& 0o77 ≠ 0 →
        claudeReadFile (.present perm) cc = .error .insecurePerm
        ∧ chatgptReadFile (.present perm) gc = .error .insecurePerm)
    ∧ claudeLoad .absent cc = .error .notExist
    ∧ chatgptLoad .absent gc = .ok ⟨[], [], GoTime.zero, .null⟩
    ∧ (perm &&& 0o77 = 0 →
        claudeLoad (.present perm) .malformed = .error .parseFailed
        ∧ chatgptLoad (.present perm) .malformed = .error .parseFailed)
    ∧ (perm &&& 0o77 = 0 →
        claudeLoad (.present perm) (.parsed none) = .error .missingWrapper)
    ∧ (∀ po : ChatGPTPO, perm &&& 0o77 = 0 → po.refreshToken = [] →
        chatgptLoad (.present perm) (.parsed po) = .error .missingRefreshToken)
    ∧ (∀ po : ClaudePO, perm &&& 0o77 = 0 →
        claudeLoad (.present perm) (.parsed (some po)) = .ok (claudeLoadFromPO po)) := by
  refine ⟨?_, by rfl, by rfl, ?_, ?_, ?_, ?_⟩
  · intro hp
    constructor
    · simp [claudeReadFile, hp]
    · simp [chatgptReadFile, hp]
  · intro hp
    constructor
    · simp [claudeLoad, claudeReadFile, hp]
    · simp [chatgptLoad, chatgptReadFile, hp]
  · intro hp
    simp [claudeLoad, claudeReadFile, hp]
  · intro po hp hrt
    simp [chatgptLoad, chatgptReadFile, hp, hrt]
  · intro po hp
    simp [claudeLoad, claudeReadFile, hp]

/-- Witness for the amended C9: permissions 0644 expose group/other
    read bits, so both stores reject the file. -/
theorem c9_load_errors_witness :
    claudeReadFile (.present 0o644) .malformed = .error .insecurePerm :=
  ((c9_load_errors 0o644 .malformed .malformed).1 (by decide)).1
